import Mathlib

/-
Verification of the server-side view layer in src/lib/xesite_templates/src/lib.rs.

The maud `html!` templates are embedded as trees of `Html` nodes: element nodes
carry their tag, attribute list (attribute values unescaped, boolean attributes
such as `controls` carry the empty string) and children; `text` nodes are
HTML-escaped on rendering, `raw` nodes (maud `PreEscaped`) are emitted verbatim.
`serde_json::Value` is embedded as `Json` (numbers as integers; `serde_json`
cannot hold non-finite floats, so this loses no failure behaviour), and
`serde_json::to_string` as `jsonToStringE`, which returns `Option` exactly as the
Rust function returns `Result` (every arm of the `Value` serializer succeeds, as
proved below). `uuid::Uuid::new_v4()` draws 128 random bits; the draw is made
explicit as a `Nat` argument `r`, and the version/variant forcing, hex display
and hyphen stripping are embedded as `uuidNoHyphens`.
-/

inductive Html where
  | el (tag : String) (attrs : List (String × String)) (children : List Html)
  | text (s : String)
  | raw (s : String)

/-- One JSON value, the embedding of `serde_json::Value`. -/
inductive Json where
  | null
  | bool (b : Bool)
  | num (n : Int)
  | str (s : String)
  | arr (xs : List Json)
  | obj (kvs : List (String × Json))

/-- Lowercase hex digit, as used by `serde_json` escapes and the uuid display. -/
def toHexDigit (n : Nat) : Char :=
  if n < 10 then Char.ofNat (48 + n) else Char.ofNat (87 + n)

/-- Two lowercase hex digits of a byte. -/
def hexByte (n : Nat) : String :=
  String.singleton (toHexDigit (n / 16 % 16)) ++ String.singleton (toHexDigit (n % 16))

/-- Escaping of one character inside a JSON string literal, as `serde_json`
does it: quote, backslash and the named control escapes get a backslash form,
the remaining control characters become a `\u00xx` escape, and every other
character (including `<`, `>` and `/`) is emitted verbatim. -/
def escChar (c : Char) : String :=
  if c = '"' then "\\\""
  else if c = '\\' then "\\\\"
  else if c = '\x08' then "\\b"
  else if c = '\x09' then "\\t"
  else if c = '\x0a' then "\\n"
  else if c = '\x0c' then "\\f"
  else if c = '\x0d' then "\\r"
  else if c.toNat < 32 then "\\u00" ++ hexByte c.toNat
  else String.singleton c

/-- A JSON string literal: quotes around the escaped characters. -/
def jsonQuote (s : String) : String :=
  "\"" ++ String.join (s.data.map escChar) ++ "\""

/-- Embedding of `serde_json::to_string` on a `Value` (compact formatter).
The Rust function returns `Result<String, Error>`; this embedding mirrors that
with `Option`, and each arm of the `Value` serializer succeeds. -/
def jsonToStringE : Json → Option String
  | .null => some "null"
  | .bool b => some (if b then "true" else "false")
  | .num n => some (toString n)
  | .str s => some (jsonQuote s)
  | .arr xs => do
      let parts ← goList xs
      some ("[" ++ String.intercalate "," parts ++ "]")
  | .obj kvs => do
      let parts ← goObj kvs
      some ("\x7b" ++ String.intercalate "," parts ++ "\x7d")
where
  goList : List Json → Option (List String)
    | [] => some []
    | x :: xs => do
        let s ← jsonToStringE x
        let rest ← goList xs
        some (s :: rest)
  goObj : List (String × Json) → Option (List String)
    | [] => some []
    | (k, v) :: xs => do
        let s ← jsonToStringE v
        let rest ← goObj xs
        some ((jsonQuote k ++ ":" ++ s) :: rest)

/-- Embedding of `conv` (lib.rs line 57): the conversational aside used for the
no-script notice. `name_lower` lowercases the original name; the displayed name
has underscores replaced by spaces. The body `Markup` is a fragment. -/
def conv (name mood : String) (body : List Html) : Html :=
  let name_lower := name.toLower
  let shown := name.replace "_" " "
  Html.el "div" [("class", "conversation")]
    [ Html.el "div" [("class", "conversation-standalone")]
        [ Html.el "picture" []
            [ Html.el "source"
                [("type", "image/avif"),
                 ("srcset", "https://cdn.xeiaso.net/file/christine-static/stickers/" ++ name_lower ++ "/" ++ mood ++ ".avif")] [],
              Html.el "source"
                [("type", "image/webp"),
                 ("srcset", "https://cdn.xeiaso.net/file/christine-static/stickers/" ++ name_lower ++ "/" ++ mood ++ ".webp")] [],
              Html.el "img"
                [("style", "max-height:4.5rem"),
                 ("alt", shown ++ " is " ++ mood),
                 ("loading", "lazy"),
                 ("src", "https://cdn.xeiaso.net/file/christine-static/stickers/" ++ name_lower ++ "/" ++ mood ++ ".png")] [] ] ],
      Html.el "div" [("class", "conversation-chat")]
        ([ Html.text "<",
           Html.el "a" [("href", "/characters#" ++ name_lower)] [Html.el "b" [] [Html.text shown]],
           Html.text "> " ] ++ body) ]

/-- The no-script child of the mount container (lib.rs lines 211-215). -/
def xeactNoscript : Html :=
  Html.el "noscript" []
    [ Html.el "div" [("class", "warning")]
        [ conv "Aoi" "coffee"
            [Html.raw "This dynamic component requires JavaScript to function, sorry!"] ] ]

/-- The mount container `div id=(uuid)` with its no-script child. -/
def xeactContainer (uuid : String) : Html :=
  Html.el "div" [("id", uuid)] [xeactNoscript]

/-- The loader script emitted by `xeact_component` (lib.rs lines 188-207): the
exact `format!` template, with `name`, the hyphen-free `uuid` (twice: once as
the cache-busting query parameter, once as the `getElementById` argument) and
the serialized props `data` interpolated. -/
def xeactScript (name uuid data : String) : String :=
  "\n<script type=\"module\">\nimport Component from \"/static/xeact/" ++ name ++
  ".js?cacheBuster=" ++ uuid ++
  "\";\n\nconst g = (name) => document.getElementById(name);\nconst x = (elem) => \x7b\n    while (elem.lastChild) \x7b\n        elem.removeChild(elem.lastChild);\n    \x7d\n\x7d;\n\nconst root = g(\"" ++ uuid ++
  "\");\nx(g);\n\nroot.appendChild(Component(" ++ data ++ "))\n</script>\n"

/-- `uuid::Uuid::new_v4()` on 128 random bits `r`: force the version nibble
(bits 76-79) to 4 and the variant bits (bits 62-63) to binary 10. -/
def uuidMask (r : Nat) : Nat :=
  let n := r % 2 ^ 128
  let n2 := (n / 2 ^ 80) * 2 ^ 80 + 4 * 2 ^ 76 + n % 2 ^ 76
  (n2 / 2 ^ 64) * 2 ^ 64 + 2 ^ 63 + n2 % 2 ^ 62

/-- Fixed-width big-endian lowercase hex of the low `d` hex digits of `n`. -/
def natToHexPad : Nat → Nat → String
  | _, 0 => ""
  | n, d + 1 => natToHexPad (n / 16) d ++ String.singleton (toHexDigit (n % 16))

/-- The hyphenated `Display` form of the v4 uuid drawn from bits `r`:
8-4-4-4-12 lowercase hex digits. -/
def uuidHyphenated (r : Nat) : String :=
  let m := uuidMask r
  natToHexPad (m / 16 ^ 24) 8 ++ "-" ++ natToHexPad (m / 16 ^ 20) 4 ++ "-" ++
  natToHexPad (m / 16 ^ 16) 4 ++ "-" ++ natToHexPad (m / 16 ^ 12) 4 ++ "-" ++
  natToHexPad m 12

/-- Removal of every `-`, the effect of `.replace("-", "")` for the
single-character pattern `-`. -/
def stripDashes (s : String) : String :=
  String.mk (s.data.filter (fun c => c != '-'))

/-- The mount-point id of lib.rs lines 185-186: the uuid drawn from bits `r`,
displayed and with hyphens stripped. -/
def uuidNoHyphens (r : Nat) : String :=
  stripDashes (uuidHyphenated r)

/-- Embedding of `xeact_component` (lib.rs lines 184-218). The 128 random bits
drawn by `Uuid::new_v4()` are the explicit argument `r`; the `.unwrap()` on
`serde_json::to_string` is modelled by propagating `none` (the panic) when
serialization fails. On success the fragment is the container div followed by
the loader script. -/
def xeact_component (name : String) (data : Json) (r : Nat) : Option (List Html) :=
  let uuid := uuidNoHyphens r
  match jsonToStringE data with
  | none => none
  | some dataStr => some [xeactContainer uuid, Html.raw (xeactScript name uuid dataStr)]

/-- A page built by N mount calls in one render pass, one random draw per call,
fragments concatenated in order (the page-assembly process of the spec). -/
def mountPage (name : String) (data : Json) : List Nat → Option (List Html)
  | [] => some []
  | r :: rest =>
      match xeact_component name data r, mountPage name data rest with
      | some frag, some page => some (frag ++ page)
      | _, _ => none

/-- The `icon` object of a mastodon `User`; only its `url` is used. -/
structure UserIcon where
  url : String

/-- The fields of `xesite_types::mastodon::User` read by `toot_embed`. -/
structure User where
  id : String
  name : String
  preferred_username : String
  url : String
  icon : UserIcon

/-- The fields of a mastodon toot attachment read by `toot_embed`. -/
structure Attachment where
  media_type : String
  url : String
  name : Option String

/-- The components of the publish timestamp consumed by the fixed
`format("M%m %d %Y %H:%M (UTC)")` call. -/
structure PubDate where
  month : Nat
  day : Nat
  year : Nat
  hour : Nat
  minute : Nat

/-- The fields of `xesite_types::mastodon::Toot` read by `toot_embed`. -/
structure Toot where
  id : String
  url : Option String
  content : String
  summary : Option String
  attachment : List Attachment
  published : PubDate

/-- Zero-padded two-digit decimal field (chrono `%m`, `%d`, `%H`, `%M`). -/
def pad2 (n : Nat) : String :=
  if n < 10 then "0" ++ toString n else toString n

/-- Zero-padded four-digit year (chrono `%Y`). -/
def pad4 (n : Nat) : String :=
  if n < 10 then "000" ++ toString n
  else if n < 100 then "00" ++ toString n
  else if n < 1000 then "0" ++ toString n
  else toString n

/-- The formatted timestamp `published.format("M%m %d %Y %H:%M (UTC)")`. -/
def formatPublished (d : PubDate) : String :=
  "M" ++ pad2 d.month ++ " " ++ pad2 d.day ++ " " ++ pad4 d.year ++ " " ++
  pad2 d.hour ++ ":" ++ pad2 d.minute ++ " (UTC)"

/-- Rust `str::starts_with`. -/
def strStartsWith (s pre : String) : Bool :=
  List.isPrefixOf pre.data s.data

/-- The fragment one attachment contributes to the toot body (lib.rs lines
130-144): two independent prefix tests on the media kind, an `a`-wrapped image
for `image/`, a native player with a textual fallback link for `video/`,
nothing otherwise. -/
def renderAttachment (att : Attachment) : List Html :=
  (if strStartsWith att.media_type "image/" then
    [ Html.el "a" [("href", att.url)]
        [ Html.el "img"
            [("width", "100%"), ("height", "100%"), ("src", att.url),
             ("alt", att.name.getD "no description provided")] [] ] ]
   else []) ++
  (if strStartsWith att.media_type "video/" then
    [ Html.el "video" [("width", "100%"), ("height", "100%"), ("controls", "")]
        [ Html.el "source" [("src", att.url), ("type", att.media_type)] [],
          Html.text "Your browser does not support the video tag, see this URL: ",
          Html.el "a" [("href", att.url)] [Html.text att.url] ] ]
   else [])

/-- The `@for` loop over the attachments, fragments concatenated in order. -/
def attachmentsHtml : List Attachment → List Html
  | [] => []
  | a :: rest => renderAttachment a ++ attachmentsHtml rest

/-- The `content` block of `toot_embed` (lib.rs lines 127-150): the pre-escaped
body, the attachment fragments, a `br` exactly when `attachment.len() != 0`,
and the permalink `a href=(t.url.unwrap_or(t.id))`. -/
def tootContent (t : Toot) : List Html :=
  Html.raw t.content ::
    (attachmentsHtml t.attachment ++
     (if t.attachment.length ≠ 0 then [Html.el "br" [] []] else []) ++
     [Html.el "a" [("href", t.url.getD t.id)] [Html.text "Link"]])

/-- The verified-badge image of lib.rs line 162. -/
def verifiedBadge : Html :=
  Html.el "img"
    [("class", "verified"),
     ("src", "https://cdn.xeiaso.net/file/christine-static/blog/verified.png")] []

/-- The children of the `.media-heading` div (lib.rs lines 159-168): stripped
display name, the badge exactly for the hard-coded trusted id, the `@handle`
profile link, a line break, the formatted timestamp. -/
def tootHeadingChildren (u : User) (t : Toot) : List Html :=
  [Html.text (u.name.replace ":verified:" "")] ++
  (if u.id = "https://pony.social/users/cadey" then [verifiedBadge] else []) ++
  [ Html.text " ",
    Html.el "a" [("href", u.url)] [Html.text "@", Html.text u.preferred_username],
    Html.el "br" [] [],
    Html.text (formatPublished t.published) ]

/-- The children of the `.media-content` div (lib.rs lines 169-178): with a
content warning the whole content block goes inside a `details` element (no
`open` attribute, hence collapsed) behind a `summary` label; without one the
content block appears directly. -/
def tootMediaContentChildren (t : Toot) : List Html :=
  match t.summary with
  | some warning =>
      [ Html.el "details" []
          (Html.el "summary" [] [Html.text "Content warning: ", Html.text warning]
            :: tootContent t) ]
  | none => tootContent t

/-- Embedding of `toot_embed` (lib.rs lines 126-182). -/
def toot_embed (u : User) (t : Toot) : List Html :=
  [ Html.el "div" [("class", "media")]
      [ Html.el "div" [("class", "media-left")]
          [ Html.el "div" [("class", "avatarholder")]
              [ Html.el "img"
                  [("src", u.icon.url),
                   ("alt", "the profile picture for " ++ u.preferred_username)] [] ] ],
        Html.el "div" [("class", "media-body")]
          [ Html.el "div" [("class", "media-heading")] (tootHeadingChildren u t),
            Html.el "div" [("class", "media-content")] (tootMediaContentChildren t) ] ] ]

mutual

/-- All values of `id` attributes in a fragment, document order: the DOM anchor
ids of the rendered markup. -/
def domIds : Html → List String
  | .el _ attrs children =>
      attrs.filterMap (fun p => if p.1 = "id" then some p.2 else none) ++ domIdsL children
  | .text _ => []
  | .raw _ => []

/-- `domIds` over a fragment. -/
def domIdsL : List Html → List String
  | [] => []
  | h :: hs => domIds h ++ domIdsL hs

end

/-- Whether the character sequence `pat` occurs contiguously inside `s`. -/
def containsSeq (pat : List Char) : List Char → Bool
  | [] => pat.isEmpty
  | c :: rest => List.isPrefixOf pat (c :: rest) || containsSeq pat rest

/-- How many positions of `s` start an occurrence of `pat`. -/
def countSeq (pat : List Char) : List Char → Nat
  | [] => 0
  | c :: rest => (if List.isPrefixOf pat (c :: rest) then 1 else 0) + countSeq pat rest

/-- `pat` occurs contiguously inside `s`. -/
def occursIn (pat s : String) : Prop :=
  ∃ pre post, s = pre ++ pat ++ post

/-- The text directly under a node list (used to read a `summary` label). -/
def textConcat : List Html → String
  | [] => ""
  | .text s :: rest => s ++ textConcat rest
  | _ :: rest => textConcat rest

/-- The label of a disclosure element: for a `details` element whose first
child is a `summary`, the text of that summary. -/
def summaryLabel : Html → Option String
  | .el "details" _ (.el "summary" _ kids :: _) => some (textConcat kids)
  | _ => none

/-- Whether a node is an element with the given tag. -/
def isTagged (tag : String) : Html → Bool
  | .el t _ _ => t = tag
  | _ => false

/-- Lowercase hexadecimal digit test. -/
def isHexDigitLower (c : Char) : Bool :=
  (48 ≤ c.toNat && c.toNat ≤ 57) || (97 ≤ c.toNat && c.toNat ≤ 102)

theorem jsonToStringE_isSome : ∀ v : Json, (jsonToStringE v).isSome = true
  | .null => rfl
  | .bool _ => rfl
  | .num _ => rfl
  | .str _ => rfl
  | .arr xs => by
      obtain ⟨l, hl⟩ := Option.isSome_iff_exists.mp (goList_isSome xs)
      simp [jsonToStringE, hl]
  | .obj kvs => by
      obtain ⟨l, hl⟩ := Option.isSome_iff_exists.mp (goObj_isSome kvs)
      simp [jsonToStringE, hl]
where
  goList_isSome : ∀ xs : List Json, (jsonToStringE.goList xs).isSome = true
    | [] => rfl
    | x :: xs => by
        obtain ⟨s, hs⟩ := Option.isSome_iff_exists.mp (jsonToStringE_isSome x)
        obtain ⟨l, hl⟩ := Option.isSome_iff_exists.mp (goList_isSome xs)
        simp [jsonToStringE.goList, hs, hl]
  goObj_isSome : ∀ kvs : List (String × Json), (jsonToStringE.goObj kvs).isSome = true
    | [] => rfl
    | (k, v) :: xs => by
        obtain ⟨s, hs⟩ := Option.isSome_iff_exists.mp (jsonToStringE_isSome v)
        obtain ⟨l, hl⟩ := Option.isSome_iff_exists.mp (goObj_isSome xs)
        simp [jsonToStringE.goObj, hs, hl]

theorem xeact_component_eq (name : String) (data : Json) (r : Nat) :
    ∃ s, jsonToStringE data = some s ∧
      xeact_component name data r =
        some [xeactContainer (uuidNoHyphens r), Html.raw (xeactScript name (uuidNoHyphens r) s)] := by
  obtain ⟨s, hs⟩ := Option.isSome_iff_exists.mp (jsonToStringE_isSome data)
  exact ⟨s, hs, by simp [xeact_component, hs]⟩

theorem domIdsL_xeactNoscript : domIdsL [xeactNoscript] = [] := by decide

theorem domIds_xeactContainer (u : String) : domIds (xeactContainer u) = [u] := by
  have h := domIdsL_xeactNoscript
  simp [xeactContainer, domIds, List.filterMap] at h ⊢
  simp [h]

theorem domIdsL_mount_fragment (u s : String) :
    domIdsL [xeactContainer u, Html.raw s] = [u] := by
  simp only [domIdsL, domIds_xeactContainer]
  simp [domIds]

theorem xeact_component_inj (name : String) (data : Json) (r₁ r₂ : Nat) :
    xeact_component name data r₁ = xeact_component name data r₂ ↔
      uuidNoHyphens r₁ = uuidNoHyphens r₂ := by
  obtain ⟨s, hs, h1⟩ := xeact_component_eq name data r₁
  obtain ⟨s', hs', h2⟩ := xeact_component_eq name data r₂
  have hss : s' = s := by rw [hs] at hs'; exact (Option.some.inj hs').symm
  subst hss
  rw [h1, h2]
  constructor
  · intro h
    have h' := congrArg (fun o => (o.map domIdsL).getD []) h
    simpa [domIdsL_mount_fragment] using h'
  · intro h
    rw [h]

/-- C10: serialization of a `serde_json::Value` props always succeeds, so the
`.unwrap()` in `xeact_component` never panics and mount returns a fragment for
every input. -/
theorem c10_mount_total (name : String) (data : Json) (r : Nat) :
    ∃ s frag, jsonToStringE data = some s ∧ xeact_component name data r = some frag := by
  obtain ⟨s, hs, he⟩ := xeact_component_eq name data r
  exact ⟨s, _, hs, he⟩

set_option maxRecDepth 100000 in
/-- C4 counterexample: two invocations of mount with the same
`(widgetName, props)` but distinct random draws return different fragments, so
mount is not a deterministic function of `(widgetName, props)` alone. -/
theorem c4_counterexample :
    xeact_component "Video" Json.null 0 ≠ xeact_component "Video" Json.null 1 := by
  intro h
  have h' := (xeact_component_inj "Video" Json.null 0 1).mp h
  revert h'
  decide

/-- C4 (amended): mount never fails on any `serde_json::Value` props, and for
fixed `(widgetName, props)` its output is determined by the drawn random id
alone: two invocations return identical fragments exactly when their drawn ids
coincide. -/
theorem c4_mount_deterministic_given_id (name : String) (data : Json) (r₁ r₂ : Nat) :
    (xeact_component name data r₁).isSome = true ∧
    (xeact_component name data r₁ = xeact_component name data r₂ ↔
      uuidNoHyphens r₁ = uuidNoHyphens r₂) := by
  obtain ⟨s, hs, h1⟩ := xeact_component_eq name data r₁
  exact ⟨by simp [h1], xeact_component_inj name data r₁ r₂⟩

set_option maxRecDepth 100000 in
/-- C1 (code bug): a props string containing the literal `</script>` is
serialized by `serde_json` without escaping `<`, `/` or `>`, is embedded
verbatim, and makes the closing sequence `</script>` occur inside the script
block before its intended end, so the embedded props terminate the enclosing
script context early. -/
theorem c1_props_close_script_early :
    jsonToStringE (Json.str "</script>") = some "\"</script>\"" ∧
    xeact_component "Widget" (Json.str "</script>") 0 =
      some [xeactContainer (uuidNoHyphens 0),
            Html.raw (xeactScript "Widget" (uuidNoHyphens 0) "\"</script>\"")] ∧
    2 ≤ countSeq "</script>".data (xeactScript "Widget" (uuidNoHyphens 0) "\"</script>\"").data := by
  refine ⟨by decide, rfl, by decide⟩

set_option maxRecDepth 100000 in
/-- C2 (code bug): the emitted loader script imports the widget with the
cache-busting parameter, looks the container up by id into `root`, and appends
the mounted component into `root`, but its child-clearing call is `x(g)` - it
clears the lookup helper `g`, not the container: `x(root)` never occurs, so the
existing children of the container element are never removed. -/
theorem c2_clear_call_misses_container :
    xeact_component "Widget" Json.null 0 =
      some [xeactContainer (uuidNoHyphens 0),
            Html.raw (xeactScript "Widget" (uuidNoHyphens 0) "null")] ∧
    containsSeq "import Component from \"/static/xeact/Widget.js?cacheBuster=".data
      (xeactScript "Widget" (uuidNoHyphens 0) "null").data = true ∧
    containsSeq "const root = g(\"".data (xeactScript "Widget" (uuidNoHyphens 0) "null").data = true ∧
    containsSeq "x(g);".data (xeactScript "Widget" (uuidNoHyphens 0) "null").data = true ∧
    containsSeq "x(root)".data (xeactScript "Widget" (uuidNoHyphens 0) "null").data = false ∧
    containsSeq "root.appendChild(Component(null))".data
      (xeactScript "Widget" (uuidNoHyphens 0) "null").data = true := by
  refine ⟨rfl, by decide, by decide, by decide, by decide, by decide⟩

theorem image_prefix_not_video (s : String) :
    strStartsWith s "image/" = true → strStartsWith s "video/" = false := by
  unfold strStartsWith
  rw [show ("image/" : String).data = ['i','m','a','g','e','/'] from rfl,
      show ("video/" : String).data = ['v','i','d','e','o','/'] from rfl]
  cases s.data with
  | nil => intro h; simp [List.isPrefixOf] at h
  | cons c cs =>
      intro h
      simp only [List.isPrefixOf, Bool.and_eq_true, beq_iff_eq] at h
      have hc : c = 'i' := h.1.symm
      subst hc
      simp [List.isPrefixOf]

theorem video_prefix_not_image (s : String) :
    strStartsWith s "video/" = true → strStartsWith s "image/" = false := by
  unfold strStartsWith
  rw [show ("image/" : String).data = ['i','m','a','g','e','/'] from rfl,
      show ("video/" : String).data = ['v','i','d','e','o','/'] from rfl]
  cases s.data with
  | nil => intro h; simp [List.isPrefixOf] at h
  | cons c cs =>
      intro h
      simp only [List.isPrefixOf, Bool.and_eq_true, beq_iff_eq] at h
      have hc : c = 'v' := h.1.symm
      subst hc
      simp [List.isPrefixOf]

theorem br_not_mem_renderAttachment (att : Attachment) :
    Html.el "br" [] [] ∉ renderAttachment att := by
  intro h
  simp only [renderAttachment, List.mem_append] at h
  rcases h with h | h <;> split at h <;> simp_all

theorem br_not_mem_attachmentsHtml (atts : List Attachment) :
    Html.el "br" [] [] ∉ attachmentsHtml atts := by
  induction atts with
  | nil => simp [attachmentsHtml]
  | cons a rest ih =>
      simp only [attachmentsHtml, List.mem_append]
      rintro (h | h)
      · exact br_not_mem_renderAttachment a h
      · exact ih h

/-- C5: the toot body carries the trailing `br` after the attachment block
exactly when the attachment list is non-empty, whether or not any attachment
rendered anything visible. -/
theorem c5_br_iff_attachments (t : Toot) :
    Html.el "br" [] [] ∈ tootContent t ↔ t.attachment ≠ [] := by
  simp only [tootContent, List.mem_cons, List.mem_append]
  constructor
  · rintro (h | (h | h) | h)
    · simp at h
    · exact absurd h (br_not_mem_attachmentsHtml t.attachment)
    · split at h
      · next hne => exact fun hnil => hne (by simp [hnil])
      · simp at h
    · simp at h
  · intro hne
    have hlen : t.attachment.length ≠ 0 := by simpa using hne
    refine Or.inr (Or.inl (Or.inr ?_))
    simp [hlen]

/-- C7: attachment rendering dispatches purely on the media-kind prefix: an
`image/` kind yields the clickable image linking to the attachment URL, a
`video/` kind yields the native player with its textual fallback link, and any
other kind yields nothing. -/
theorem c7_attachment_dispatch (att : Attachment) :
    (strStartsWith att.media_type "image/" = true →
      renderAttachment att =
        [ Html.el "a" [("href", att.url)]
            [ Html.el "img"
                [("width", "100%"), ("height", "100%"), ("src", att.url),
                 ("alt", att.name.getD "no description provided")] [] ] ]) ∧
    (strStartsWith att.media_type "video/" = true →
      renderAttachment att =
        [ Html.el "video" [("width", "100%"), ("height", "100%"), ("controls", "")]
            [ Html.el "source" [("src", att.url), ("type", att.media_type)] [],
              Html.text "Your browser does not support the video tag, see this URL: ",
              Html.el "a" [("href", att.url)] [Html.text att.url] ] ]) ∧
    (strStartsWith att.media_type "image/" = false →
      strStartsWith att.media_type "video/" = false →
      renderAttachment att = []) := by
  refine ⟨?_, ?_, ?_⟩
  · intro h
    have hv := image_prefix_not_video att.media_type h
    simp [renderAttachment, h, hv]
  · intro h
    have hi := video_prefix_not_image att.media_type h
    simp [renderAttachment, h, hi]
  · intro h1 h2
    simp [renderAttachment, h1, h2]

/-- C7 witness: a `image/png` attachment renders as the clickable image. -/
theorem c7_attachment_dispatch_witness :
    renderAttachment ⟨"image/png", "https://example.com/a.png", some "a cat"⟩ =
      [ Html.el "a" [("href", "https://example.com/a.png")]
          [ Html.el "img"
              [("width", "100%"), ("height", "100%"), ("src", "https://example.com/a.png"),
               ("alt", "a cat")] [] ] ] :=
  (c7_attachment_dispatch ⟨"image/png", "https://example.com/a.png", some "a cat"⟩).1 (by decide)

/-- C9: the permalink closing the toot body targets the canonical URL when one
is present and falls back to the internal id when it is absent. -/
theorem c9_permalink_fallback (t : Toot) :
    (t.url = none →
      (tootContent t).getLast? = some (Html.el "a" [("href", t.id)] [Html.text "Link"])) ∧
    (∀ c, t.url = some c →
      (tootContent t).getLast? = some (Html.el "a" [("href", c)] [Html.text "Link"])) := by
  have hshape : tootContent t =
      (Html.raw t.content ::
        (attachmentsHtml t.attachment ++
         (if t.attachment.length ≠ 0 then [Html.el "br" [] []] else []))) ++
      [Html.el "a" [("href", t.url.getD t.id)] [Html.text "Link"]] := by
    simp [tootContent]
  constructor
  · intro h
    rw [hshape, List.getLast?_concat]
    simp [h]
  · intro c h
    rw [hshape, List.getLast?_concat]
    simp [h]

/-- C9 witness: with no canonical URL the permalink falls back to the id. -/
theorem c9_permalink_fallback_witness :
    (tootContent ⟨"123", none, "<p>hi</p>", none, [], ⟨1, 2, 2020, 3, 4⟩⟩).getLast? =
      some (Html.el "a" [("href", "123")] [Html.text "Link"]) :=
  (c9_permalink_fallback ⟨"123", none, "<p>hi</p>", none, [], ⟨1, 2, 2020, 3, 4⟩⟩).1 rfl

theorem details_not_mem_renderAttachment (att : Attachment) :
    ∀ h ∈ renderAttachment att, isTagged "details" h = false := by
  intro h hm
  simp only [renderAttachment, List.mem_append] at hm
  rcases hm with hm | hm <;> split at hm <;> simp_all [isTagged]

theorem details_not_mem_attachmentsHtml (atts : List Attachment) :
    ∀ h ∈ attachmentsHtml atts, isTagged "details" h = false := by
  induction atts with
  | nil => simp [attachmentsHtml]
  | cons a rest ih =>
      intro h hm
      simp only [attachmentsHtml, List.mem_append] at hm
      rcases hm with hm | hm
      · exact details_not_mem_renderAttachment a h hm
      · exact ih h hm

theorem details_not_mem_tootContent (t : Toot) :
    ∀ h ∈ tootContent t, isTagged "details" h = false := by
  intro h hm
  simp only [tootContent, List.mem_cons, List.mem_append] at hm
  rcases hm with hm | (hm | hm) | hm
  · subst hm; rfl
  · exact details_not_mem_attachmentsHtml t.attachment h hm
  · split at hm <;> simp_all [isTagged]
  · simp at hm; subst hm; simp [isTagged]

/-- C6 counterexample: for a post carrying the warning `spiders`, the one
disclosure element in the rendered body is labeled `Content warning: spiders`,
not the warning text `spiders` verbatim. -/
theorem c6_counterexample :
    (tootMediaContentChildren
        ⟨"123", none, "<p>hi</p>", some "spiders", [], ⟨1, 2, 2020, 3, 4⟩⟩).map summaryLabel =
      [some "Content warning: spiders"] ∧
    "Content warning: spiders" ≠ "spiders" := by
  refine ⟨by decide, by decide⟩

/-- C6 (amended): with a content warning the whole body - attachments, text and
permalink - is wrapped in a single `details` disclosure element that carries no
`open` attribute (so it is collapsed by default) and whose `summary` label is
the literal prefix `Content warning: ` followed by the warning text verbatim;
without a warning the body appears directly and contains no disclosure
element. -/
theorem c6_content_warning_gate (t : Toot) :
    (∀ w, t.summary = some w →
      tootMediaContentChildren t =
        [ Html.el "details" []
            (Html.el "summary" [] [Html.text "Content warning: ", Html.text w]
              :: tootContent t) ] ∧
      summaryLabel
          (Html.el "details" []
            (Html.el "summary" [] [Html.text "Content warning: ", Html.text w]
              :: tootContent t)) =
        some ("Content warning: " ++ w)) ∧
    (t.summary = none →
      tootMediaContentChildren t = tootContent t ∧
      ∀ h ∈ tootContent t, isTagged "details" h = false) := by
  constructor
  · intro w hw
    refine ⟨by simp [tootMediaContentChildren, hw], ?_⟩
    simp [summaryLabel, textConcat, String.append_empty, String.append_assoc]
  · intro hn
    exact ⟨by simp [tootMediaContentChildren, hn], details_not_mem_tootContent t⟩

/-- C6 witness: the gate at a post with warning `spiders` and at one without. -/
theorem c6_content_warning_gate_witness :
    tootMediaContentChildren
        ⟨"123", none, "<p>hi</p>", some "spiders", [], ⟨1, 2, 2020, 3, 4⟩⟩ =
      [ Html.el "details" []
          (Html.el "summary" [] [Html.text "Content warning: ", Html.text "spiders"]
            :: tootContent ⟨"123", none, "<p>hi</p>", some "spiders", [], ⟨1, 2, 2020, 3, 4⟩⟩) ] ∧
    tootMediaContentChildren ⟨"456", none, "<p>hi</p>", none, [], ⟨1, 2, 2020, 3, 4⟩⟩ =
      tootContent ⟨"456", none, "<p>hi</p>", none, [], ⟨1, 2, 2020, 3, 4⟩⟩ :=
  ⟨((c6_content_warning_gate ⟨"123", none, "<p>hi</p>", some "spiders", [], ⟨1, 2, 2020, 3, 4⟩⟩).1
      "spiders" rfl).1,
   ((c6_content_warning_gate ⟨"456", none, "<p>hi</p>", none, [], ⟨1, 2, 2020, 3, 4⟩⟩).2 rfl).1⟩

/-- C8: the heading starts with the author display name with every embedded
`:verified:` marker stripped, and contains the inline verified badge image
exactly when the author id is the hard-coded trusted identity. -/
theorem c8_heading_name_and_badge (u : User) (t : Toot) :
    (tootHeadingChildren u t).head? = some (Html.text (u.name.replace ":verified:" "")) ∧
    (verifiedBadge ∈ tootHeadingChildren u t ↔ u.id = "https://pony.social/users/cadey") := by
  refine ⟨rfl, ?_⟩
  by_cases h : u.id = "https://pony.social/users/cadey"
  · simp [tootHeadingChildren, h]
  · simp [tootHeadingChildren, h, verifiedBadge]

theorem domIdsL_append (l₁ l₂ : List Html) :
    domIdsL (l₁ ++ l₂) = domIdsL l₁ ++ domIdsL l₂ := by
  induction l₁ with
  | nil => simp [domIdsL]
  | cons h hs ih => simp [domIdsL, ih]

theorem toHexDigit_hex (m : Nat) (hm : m < 16) : isHexDigitLower (toHexDigit m) = true := by
  interval_cases m <;> decide

theorem natToHexPad_hex (n d : Nat) :
    ∀ c ∈ (natToHexPad n d).data, isHexDigitLower c = true := by
  induction d generalizing n with
  | zero =>
      intro c hc
      rw [show (natToHexPad n 0).data = [] from rfl] at hc
      exact absurd hc (List.not_mem_nil c)
  | succ d ih =>
      intro c hc
      rw [show natToHexPad n (d + 1) =
            natToHexPad (n / 16) d ++ String.singleton (toHexDigit (n % 16)) from rfl,
          String.data_append] at hc
      rcases List.mem_append.mp hc with h | h
      · exact ih (n / 16) c h
      · rw [show (String.singleton (toHexDigit (n % 16))).data = [toHexDigit (n % 16)] from rfl] at h
        have hc' : c = toHexDigit (n % 16) := List.mem_singleton.mp h
        subst hc'
        exact toHexDigit_hex (n % 16) (Nat.mod_lt n (by decide))

theorem hex_ne_dash (c : Char) (h : isHexDigitLower c = true) : (c != '-') = true := by
  simp only [bne_iff_ne, ne_eq]
  intro hc
  subst hc
  exact absurd h (by decide)

theorem natToHexPad_len (n d : Nat) : (natToHexPad n d).data.length = d := by
  induction d generalizing n with
  | zero => rfl
  | succ d ih =>
      rw [show natToHexPad n (d + 1) =
            natToHexPad (n / 16) d ++ String.singleton (toHexDigit (n % 16)) from rfl,
          String.data_append, List.length_append, ih]
      rfl

theorem filter_hex_group (n d : Nat) :
    (natToHexPad n d).data.filter (fun c => c != '-') = (natToHexPad n d).data :=
  List.filter_eq_self.mpr (fun c hc => hex_ne_dash c (natToHexPad_hex n d c hc))

theorem stripDashes_data (s : String) :
    (stripDashes s).data = s.data.filter (fun c => c != '-') := rfl

theorem string_mk_length (l : List Char) : (String.mk l).length = l.length := rfl

theorem uuidNoHyphens_length (r : Nat) : (uuidNoHyphens r).length = 32 := by
  rw [uuidNoHyphens, stripDashes, string_mk_length]
  simp only [uuidHyphenated, String.data_append, List.filter_append, List.length_append]
  rw [filter_hex_group, filter_hex_group, filter_hex_group, filter_hex_group, filter_hex_group]
  rw [show (("-" : String).data.filter (fun c => c != '-')) = [] from rfl]
  simp only [natToHexPad_len, List.length_nil]

theorem uuidNoHyphens_hex (r : Nat) :
    ∀ c ∈ (uuidNoHyphens r).data, isHexDigitLower c = true := by
  intro c hc
  rw [uuidNoHyphens] at hc
  rw [show (stripDashes (uuidHyphenated r)).data =
        (uuidHyphenated r).data.filter (fun c => c != '-') from stripDashes_data _] at hc
  obtain ⟨hmem, hp⟩ := List.mem_filter.mp hc
  have hdash : c ∉ (['-'] : List Char) := by
    intro h
    have hc2 : c = '-' := List.mem_singleton.mp h
    subst hc2
    exact absurd hp (by decide)
  simp only [uuidHyphenated, String.data_append, List.mem_append] at hmem
  rcases hmem with ((((((((h | h) | h) | h) | h) | h) | h) | h) | h)
  · exact natToHexPad_hex _ 8 c h
  · exact absurd h hdash
  · exact natToHexPad_hex _ 4 c h
  · exact absurd h hdash
  · exact natToHexPad_hex _ 4 c h
  · exact absurd h hdash
  · exact natToHexPad_hex _ 4 c h
  · exact absurd h hdash
  · exact natToHexPad_hex _ 12 c h

theorem xeactScript_importUrl (n u d : String) :
    occursIn ("/static/xeact/" ++ n ++ ".js?cacheBuster=" ++ u) (xeactScript n u d) := by
  refine ⟨"\n<script type=\"module\">\nimport Component from \"",
    "\";\n\nconst g = (name) => document.getElementById(name);\nconst x = (elem) => \x7b\n    while (elem.lastChild) \x7b\n        elem.removeChild(elem.lastChild);\n    \x7d\n\x7d;\n\nconst root = g(\"" ++ u ++
      "\");\nx(g);\n\nroot.appendChild(Component(" ++ d ++ "))\n</script>\n", ?_⟩
  rw [xeactScript]
  rw [show ("\n<script type=\"module\">\nimport Component from \"/static/xeact/" : String) =
        "\n<script type=\"module\">\nimport Component from \"" ++ "/static/xeact/" from rfl]
  simp only [String.append_assoc]

theorem mountPage_ids (name : String) (data : Json) :
    ∀ rs : List Nat, ∃ page, mountPage name data rs = some page ∧
      domIdsL page = rs.map uuidNoHyphens := by
  intro rs
  induction rs with
  | nil => exact ⟨[], rfl, rfl⟩
  | cons r rest ih =>
      obtain ⟨page, hp, hids⟩ := ih
      obtain ⟨s, hs, he⟩ := xeact_component_eq name data r
      refine ⟨[xeactContainer (uuidNoHyphens r),
               Html.raw (xeactScript name (uuidNoHyphens r) s)] ++ page, ?_, ?_⟩
      · rw [mountPage, he, hp]
      · rw [domIdsL_append, domIdsL_mount_fragment, hids, List.map_cons]
        rfl

/-- C3: a page of N mount calls whose random draws yield pairwise distinct ids
renders with exactly those ids as its DOM anchor ids, one per call and each
appearing nowhere else on the page; every id is the drawn 128-bit value
hex-encoded with hyphens stripped (32 lowercase hex digits), and each call uses
its id both as the container id and as the cache-busting query parameter of
that same call's widget module URL. -/
theorem c3_mount_ids_unique (name : String) (data : Json) (rs : List Nat)
    (hfresh : (rs.map uuidNoHyphens).Nodup) :
    ∃ page, mountPage name data rs = some page ∧
      domIdsL page = rs.map uuidNoHyphens ∧
      (domIdsL page).Nodup ∧
      ∀ r ∈ rs,
        (uuidNoHyphens r).length = 32 ∧
        (∀ c ∈ (uuidNoHyphens r).data, isHexDigitLower c = true) ∧
        ∃ s, jsonToStringE data = some s ∧
          xeact_component name data r =
            some [xeactContainer (uuidNoHyphens r),
                  Html.raw (xeactScript name (uuidNoHyphens r) s)] ∧
          occursIn ("/static/xeact/" ++ name ++ ".js?cacheBuster=" ++ uuidNoHyphens r)
            (xeactScript name (uuidNoHyphens r) s) := by
  obtain ⟨page, hp, hids⟩ := mountPage_ids name data rs
  refine ⟨page, hp, hids, by rw [hids]; exact hfresh, ?_⟩
  intro r hr
  obtain ⟨s, hs, he⟩ := xeact_component_eq name data r
  exact ⟨uuidNoHyphens_length r, uuidNoHyphens_hex r, s, hs, he,
         xeactScript_importUrl name (uuidNoHyphens r) s⟩

set_option maxRecDepth 1000000 in
/-- C3 witness: a page of two mount calls with draws 0 and 1. -/
theorem c3_mount_ids_unique_witness :
    ∃ page, mountPage "Video" Json.null [0, 1] = some page ∧
      domIdsL page = [0, 1].map uuidNoHyphens ∧
      (domIdsL page).Nodup ∧
      ∀ r ∈ [0, 1],
        (uuidNoHyphens r).length = 32 ∧
        (∀ c ∈ (uuidNoHyphens r).data, isHexDigitLower c = true) ∧
        ∃ s, jsonToStringE Json.null = some s ∧
          xeact_component "Video" Json.null r =
            some [xeactContainer (uuidNoHyphens r),
                  Html.raw (xeactScript "Video" (uuidNoHyphens r) s)] ∧
          occursIn ("/static/xeact/" ++ "Video" ++ ".js?cacheBuster=" ++ uuidNoHyphens r)
            (xeactScript "Video" (uuidNoHyphens r) s) :=
  c3_mount_ids_unique "Video" Json.null [0, 1] (by decide)
